import Mathlib

/-!
Verification development for the configuration provisioning and merge engine
of the claude-client-deploy-template repository (deploy/install.js).

Strings are modelled as List Char.  Filesystem interaction is modelled by a
World record describing the outcome of each read/write the script performs;
the install function is a pure function from a World to the writes it makes
and its exit status.  JSON.parse and JSON.stringify(v, null, 2) are modelled
concretely (jsonParse, jstringify); the model supports integer JSON numbers
only and the basic string escapes, which covers every document this script
manipulates.
-/

def strL (s : String) : List Char := s.data

def lbrace : Char := '\x7b'

def rbrace : Char := '\x7d'

/-- Model of String.prototype.replace(/pat/g, repl) for a literal pattern:
replace every non-overlapping occurrence, scanning left to right.  Fuel-based
so that the kernel can evaluate it; fuel equal to the length of the text is
always sufficient because each step consumes at least one character.
Replacement values containing JavaScript dollar patterns are outside the
model (no value in this program contains them). -/
def replaceAllFuel (pat repl : List Char) : Nat → List Char → List Char
  | _, [] => []
  | 0, s => s
  | fuel+1, c :: rest =>
    if List.isPrefixOf pat (c :: rest) then
      repl ++ replaceAllFuel pat repl fuel ((c :: rest).drop pat.length)
    else
      c :: replaceAllFuel pat repl fuel rest

def replaceAll (pat repl s : List Char) : List Char :=
  replaceAllFuel pat repl s.length s

/-- Whether pat occurs as a contiguous substring of s. -/
def hasSub (pat : List Char) : List Char → Bool
  | [] => List.isPrefixOf pat []
  | c :: rest => List.isPrefixOf pat (c :: rest) || hasSub pat rest

/-- Lookup of a property on a JavaScript object modelled as an association
list in property-creation order: the first matching key wins (parsed objects
never carry duplicate keys). -/
def jsGet {α : Type} (m : List (List Char × α)) (k : List Char) : Option α :=
  (m.find? (fun p => p.1 == k)).map (fun p => p.2)

/-- JavaScript property assignment obj[k] = v: an existing key keeps its
position and gets the new value, a fresh key is appended. -/
def jsSet {α : Type} (m : List (List Char × α)) (k : List Char) (v : α) :
    List (List Char × α) :=
  if m.any (fun p => p.1 == k) then m.map (fun p => if p.1 == k then (k, v) else p)
  else m ++ [(k, v)]

def jsKeys {α : Type} (m : List (List Char × α)) : List (List Char) :=
  m.map (fun p => p.1)

/-- Semantics of the object literal spread combination of two objects,
written in the source as a spread of a followed by a spread of b:
every property of b is assigned over a in order. -/
def jsSpread {α : Type} (a b : List (List Char × α)) : List (List Char × α) :=
  b.foldl (fun acc p => jsSet acc p.1 p.2) a

/-- Removal of a key; used only to state claims about omitted keys. -/
def jsErase {α : Type} (k : List Char) (m : List (List Char × α)) :
    List (List Char × α) :=
  m.filter (fun p => !(p.1 == k))

/-- Model of JavaScript String.prototype.trim on the whitespace characters
relevant to .env files (space, tab, carriage return, line feed). -/
def trimL (s : List Char) : List Char :=
  ((s.dropWhile Char.isWhitespace).reverse.dropWhile Char.isWhitespace).reverse

abbrev EnvMap := List (List Char × List Char)

/-- One line of the .env parser (install.js lines 49-55): trim, skip blank
lines and lines starting with a hash, split on the equals sign, the first
part is the key, the rest re-joined with equals signs is the value, both
trimmed. -/
def parseEnvLine (line : List Char) : Option (List Char × List Char) :=
  let l := trimL line
  match l with
  | [] => none
  | c :: _ =>
    if c == '#' then none
    else
      match l.splitOn '=' with
      | [] => none
      | key :: valueParts =>
        some (trimL key, trimL (List.intercalate ['='] valueParts))

/-- The .env parser: split the content on newlines and assign each parsed
line into the env object (a later line with the same key overwrites). -/
def parseEnv (s : List Char) : EnvMap :=
  (List.splitOn '\n' s).foldl (fun env line =>
    match parseEnvLine line with
    | some kv => jsSet env kv.1 kv.2
    | none => env) []

/-- Outcome of a single filesystem read. -/
inductive FileRead where
  | content (s : List Char)
  | enoent
  | readError
deriving DecidableEq

/-- loadEnv (install.js lines 43-65): read and parse the .env file; a missing
file (ENOENT) yields an empty env plus a warning, any other read error
propagates (modelled as none).  The Bool records whether the warning about a
missing .env file was printed. -/
def loadEnvFR : FileRead → Option (EnvMap × Bool)
  | FileRead.content s => some (parseEnv s, false)
  | FileRead.enoent => some ([], true)
  | FileRead.readError => none

/-- Model of the JavaScript string-or-default idiom (env.X || d): the empty
string is falsy, so both an absent key and an empty value fall back to d. -/
def orDefault (v : Option (List Char)) (d : List Char) : List Char :=
  match v with
  | some s => if s = [] then d else s
  | none => d

/-- Model of path.join for the normalized inputs this script uses. -/
def pathJoin (a b : List Char) : List Char := a ++ strL "/" ++ b

/-- The resolved parameters of install.js lines 94-105 and 125. -/
structure Params where
  installDir : List Char
  orchestratorPath : List Char
  hubspotPath : List Char
  sharepointPath : List Char
  asanaPath : List Char
  hubspotUrl : List Char
  sharepointUrl : List Char
  asanaUrl : List Char
  debug : List Char
deriving DecidableEq

/-- Parameter resolution (install.js lines 94-105 and the DEBUG default of
line 125): each configurable value is env.KEY || built-in default. -/
def resolveParams (env : EnvMap) (homedir rootDir : List Char) : Params :=
  let installDir := orDefault (jsGet env (strL "INSTALL_DIR")) homedir
  ⟨installDir,
   pathJoin rootDir (strL "node_modules/@magicturtle/claude-orchestrator"),
   orDefault (jsGet env (strL "HUBSPOT_PROJECT_PATH")) (pathJoin installDir (strL "hubspot-mcp-railway")),
   orDefault (jsGet env (strL "SHAREPOINT_PROJECT_PATH")) (pathJoin installDir (strL "sharepoint-mcp-railway")),
   orDefault (jsGet env (strL "ASANA_PROJECT_PATH")) (pathJoin installDir (strL "asana-mcp-railway")),
   orDefault (jsGet env (strL "HUBSPOT_MCP_URL")) (strL "https://hubspot-mcp-railway-production-386b.up.railway.app/mcp"),
   orDefault (jsGet env (strL "SHAREPOINT_MCP_URL")) (strL "https://sharepoint-mcp-railway-production.up.railway.app/mcp"),
   orDefault (jsGet env (strL "ASANA_MCP_URL")) (strL "https://asana-mcp-railway-production.up.railway.app/sse"),
   orDefault (jsGet env (strL "DEBUG")) (strL "false")⟩

def phOrchestratorPath : List Char := strL "\x7b\x7bORCHESTRATOR_PATH\x7d\x7d"

def phHubspotPath : List Char := strL "\x7b\x7bHUBSPOT_PROJECT_PATH\x7d\x7d"

def phSharepointPath : List Char := strL "\x7b\x7bSHAREPOINT_PROJECT_PATH\x7d\x7d"

def phAsanaPath : List Char := strL "\x7b\x7bASANA_PROJECT_PATH\x7d\x7d"

def phHubspotUrl : List Char := strL "\x7b\x7bHUBSPOT_MCP_URL\x7d\x7d"

def phSharepointUrl : List Char := strL "\x7b\x7bSHAREPOINT_MCP_URL\x7d\x7d"

def phAsanaUrl : List Char := strL "\x7b\x7bASANA_MCP_URL\x7d\x7d"

def phDebug : List Char := strL "\x7b\x7bDEBUG\x7d\x7d"

def placeholderTokens : List (List Char) :=
  [phOrchestratorPath, phHubspotPath, phSharepointPath, phAsanaPath,
   phHubspotUrl, phSharepointUrl, phAsanaUrl, phDebug]

/-- Backslash doubling applied to the path-shaped values before substitution
(install.js lines 118-121). -/
def escBack (v : List Char) : List Char := replaceAll ['\\'] ['\\', '\\'] v

/-- The template rendering pass (install.js lines 117-125): the eight
placeholder tokens are replaced globally, in source order, path values with
their backslashes doubled. -/
def render (env : EnvMap) (homedir rootDir t : List Char) : List Char :=
  let p := resolveParams env homedir rootDir
  let t1 := replaceAll phOrchestratorPath (escBack p.orchestratorPath) t
  let t2 := replaceAll phHubspotPath (escBack p.hubspotPath) t1
  let t3 := replaceAll phSharepointPath (escBack p.sharepointPath) t2
  let t4 := replaceAll phAsanaPath (escBack p.asanaPath) t3
  let t5 := replaceAll phHubspotUrl p.hubspotUrl t4
  let t6 := replaceAll phSharepointUrl p.sharepointUrl t5
  let t7 := replaceAll phAsanaUrl p.asanaUrl t6
  replaceAll phDebug p.debug t7

/-- Parsed JSON values. -/
inductive JValue where
  | null
  | bool (b : Bool)
  | num (n : Int)
  | str (s : List Char)
  | arr (xs : List JValue)
  | obj (fs : List (List Char × JValue))

abbrev JObj := List (List Char × JValue)

def jsonWs (c : Char) : Bool := c == ' ' || c == '\t' || c == '\n' || c == '\r'

def skipWs (s : List Char) : List Char := s.dropWhile jsonWs

def jsonUnescape (e : Char) : Option Char :=
  if e == '"' then some '"'
  else if e == '\\' then some '\\'
  else if e == '/' then some '/'
  else if e == 'n' then some '\n'
  else if e == 't' then some '\t'
  else if e == 'r' then some '\r'
  else if e == 'b' then some (Char.ofNat 8)
  else if e == 'f' then some (Char.ofNat 12)
  else none

/-- JSON string body after the opening quote, with the basic escapes. -/
def parseStringBody : Nat → List Char → Option (List Char × List Char)
  | 0, _ => none
  | _+1, [] => none
  | fuel+1, c :: rest =>
    if c == '"' then some ([], rest)
    else if c == '\\' then
      match rest with
      | [] => none
      | e :: rest2 =>
        (jsonUnescape e).bind (fun d =>
          (parseStringBody fuel rest2).map (fun pr => (d :: pr.1, pr.2)))
    else (parseStringBody fuel rest).map (fun pr => (c :: pr.1, pr.2))

def isDigitC (c : Char) : Bool := 48 ≤ c.toNat && c.toNat ≤ 57

def digitsToNat (ds : List Char) : Nat :=
  ds.foldl (fun a c => a * 10 + (c.toNat - 48)) 0

/-- JSON integer literal (an optional minus sign and digits, no leading
zeros); fractional and exponent syntax is outside the model. -/
def parseNumber (s : List Char) : Option (Int × List Char) :=
  let pr : Bool × List Char :=
    match s with
    | c :: rest => if c == '-' then (true, rest) else (false, s)
    | [] => (false, s)
  let ds := pr.2.takeWhile isDigitC
  let rest := pr.2.dropWhile isDigitC
  if ds = [] then none
  else if 1 < ds.length ∧ ds.headD '0' = '0' then none
  else
    let v : Int := if pr.1 then -(Int.ofNat (digitsToNat ds)) else Int.ofNat (digitsToNat ds)
    match rest with
    | c :: _ => if c == '.' || c == 'e' || c == 'E' then none else some (v, rest)
    | [] => some (v, rest)

/-- Members of a JSON object after its opening brace (at least one member).
Duplicate keys follow the JavaScript rule: position of the first occurrence,
value of the last. -/
def parseMembers (pv : List Char → Option (JValue × List Char)) :
    Nat → JObj → List Char → Option (JObj × List Char)
  | 0, _, _ => none
  | fuel+1, acc, s =>
    match skipWs s with
    | [] => none
    | c :: rest =>
      if c == '"' then
        match parseStringBody (rest.length + 1) rest with
        | none => none
        | some (key, s2) =>
          match skipWs s2 with
          | ':' :: s4 =>
            match pv s4 with
            | none => none
            | some (v, s5) =>
              match skipWs s5 with
              | c2 :: s7 =>
                if c2 == ',' then parseMembers pv fuel (jsSet acc key v) s7
                else if c2 == rbrace then some (jsSet acc key v, s7)
                else none
              | [] => none
          | _ => none
      else none

/-- Items of a JSON array after its opening bracket (at least one item). -/
def parseItems (pv : List Char → Option (JValue × List Char)) :
    Nat → List JValue → List Char → Option (List JValue × List Char)
  | 0, _, _ => none
  | fuel+1, acc, s =>
    match pv s with
    | none => none
    | some (v, s2) =>
      match skipWs s2 with
      | c :: s3 =>
        if c == ',' then parseItems pv fuel (acc ++ [v]) s3
        else if c == ']' then some (acc ++ [v], s3)
        else none
      | [] => none

/-- Recursive-descent JSON value parser; the fuel bounds nesting depth and
the input length always suffices. -/
def parseVal : Nat → List Char → Option (JValue × List Char)
  | 0, _ => none
  | fuel+1, s0 =>
    let s := skipWs s0
    match s with
    | [] => none
    | c :: rest =>
      if c == lbrace then
        match skipWs rest with
        | [] => none
        | c1 :: r1 =>
          if c1 == rbrace then some (JValue.obj [], r1)
          else
            (parseMembers (fun t => parseVal fuel t) ((c1 :: r1).length) [] (c1 :: r1)).map
              (fun pr => (JValue.obj pr.1, pr.2))
      else if c == '[' then
        match skipWs rest with
        | [] => none
        | c1 :: r1 =>
          if c1 == ']' then some (JValue.arr [], r1)
          else
            (parseItems (fun t => parseVal fuel t) ((c1 :: r1).length) [] (c1 :: r1)).map
              (fun pr => (JValue.arr pr.1, pr.2))
      else if c == '"' then
        (parseStringBody (rest.length + 1) rest).map (fun pr => (JValue.str pr.1, pr.2))
      else if List.isPrefixOf (strL "null") s then some (JValue.null, s.drop 4)
      else if List.isPrefixOf (strL "true") s then some (JValue.bool true, s.drop 4)
      else if List.isPrefixOf (strL "false") s then some (JValue.bool false, s.drop 5)
      else (parseNumber s).map (fun pr => (JValue.num pr.1, pr.2))

/-- Model of JSON.parse: a single value with nothing but whitespace after
it; a syntax error is modelled as none. -/
def jsonParse (s : List Char) : Option JValue :=
  match parseVal (s.length + 2) s with
  | none => none
  | some (v, rest) => if skipWs rest = [] then some v else none

def nlC : Char := '\n'

def spacesN (n : Nat) : List Char := List.replicate n ' '

def jquoteBody (s : List Char) : List Char :=
  s.flatMap (fun c =>
    if c == '"' then ['\\', '"']
    else if c == '\\' then ['\\', '\\']
    else if c == '\n' then ['\\', 'n']
    else if c == '\t' then ['\\', 't']
    else if c == '\r' then ['\\', 'r']
    else [c])

def jquote (s : List Char) : List Char := '"' :: jquoteBody s ++ ['"']

def joinComma (xs : List (List Char)) : List Char := List.intercalate [',', nlC] xs

mutual

/-- Model of JSON.stringify(v, null, 2): pretty printing with two-space
indentation, ind being the indentation column of the closing bracket. -/
def jstringify (ind : Nat) : JValue → List Char
  | JValue.null => strL "null"
  | JValue.bool true => strL "true"
  | JValue.bool false => strL "false"
  | JValue.num n => strL (toString n)
  | JValue.str s => jquote s
  | JValue.arr [] => strL "[]"
  | JValue.arr (x :: xs) =>
    '[' :: nlC ::
      (joinComma (jstringifyItems (ind + 2) (x :: xs)) ++ nlC :: spacesN ind ++ [']'])
  | JValue.obj [] => [lbrace, rbrace]
  | JValue.obj (f :: fs) =>
    lbrace :: nlC ::
      (joinComma (jstringifyFields (ind + 2) (f :: fs)) ++ nlC :: spacesN ind ++ [rbrace])

def jstringifyItems (ind : Nat) : List JValue → List (List Char)
  | [] => []
  | x :: xs => (spacesN ind ++ jstringify ind x) :: jstringifyItems ind xs

def jstringifyFields (ind : Nat) : JObj → List (List Char)
  | [] => []
  | (k, v) :: fs =>
    (spacesN ind ++ jquote k ++ ':' :: ' ' :: jstringify ind v) :: jstringifyFields ind fs

end

def natToChars (n : Nat) : List Char := (Nat.repr n).data

/-- Length of Object.keys(v || an empty object): falsy values give zero, a
string its character count, an array its element count, an object its
property count, other primitives have no enumerable keys. -/
def jsKeysLen : JValue → Nat
  | JValue.obj fs => fs.length
  | JValue.str s => s.length
  | JValue.arr xs => xs.length
  | _ => 0

/-- The own enumerable properties a value contributes under object spread:
objects their properties, strings and arrays their indexed elements, every
other value nothing. -/
def jsSpreadSrc : JValue → JObj
  | JValue.obj fs => fs
  | JValue.str s => s.enum.map (fun p => (natToChars p.1, JValue.str [p.2]))
  | JValue.arr xs => xs.enum.map (fun p => (natToChars p.1, p.2))
  | _ => []

def mcpKey : List Char := strL "mcpServers"

/-- The default shell document of install.js line 137. -/
def emptyShell : JValue := JValue.obj [(mcpKey, JValue.obj [])]

/-- Backup file name of install.js line 147. -/
def backupName (p : List Char) (now : Nat) : List Char :=
  p ++ strL ".backup." ++ natToChars now

/-- generatedConfig.mcpServers as a value (absent or non-object access
yields the null-like value; a null generatedConfig is handled separately
because accessing a property of null throws). -/
def genFieldOf (gen : JValue) : JValue :=
  match gen with
  | JValue.obj gs => (jsGet gs mcpKey).getD JValue.null
  | _ => JValue.null

/-- The merged provider registry of install.js lines 153-156: a spread of
the existing mcpServers followed by a spread of the generated mcpServers. -/
def mergedServers (a b : JValue) : JObj :=
  jsSpread (jsSpreadSrc a) (jsSpreadSrc b)

/-- The pre-merge provider entries of a parsed target object. -/
def providersOf (fs : JObj) : JObj :=
  jsSpreadSrc ((jsGet fs mcpKey).getD JValue.null)

/-- Well-formedness of the mcpServers field of a parsed target document:
absent, null, or an object (the configurations this system reads and
writes). -/
def mcpFieldWF (fs : JObj) : Bool :=
  match jsGet fs mcpKey with
  | none => true
  | some JValue.null => true
  | some (JValue.obj _) => true
  | some _ => false

structure MergeOut where
  backup : Option (List Char × List Char)
  finalDoc : Option JValue
  ok : Bool

/-- Steps 4 of install.js (lines 137-160) given the parsed existing document
and the parsed generated document: back up when the existing mcpServers has
enumerable keys (a failing backup write aborts, there is no handler around
it), then assign the spread merge and write the final document.  A null
existing document throws on the property access of line 146; a primitive
existing document throws on the strict-mode property assignment of line 153;
an array accepts the assignment but its serialization ignores the added
property; a null generated document throws on the property access of line
155 after the backup was already taken. -/
def mergePhase (backupOk : Bool) (now : Nat) (cfgPath : List Char)
    (claudeParsed genParsed : JValue) : MergeOut :=
  match claudeParsed with
  | JValue.obj fs =>
    let mcpField := (jsGet fs mcpKey).getD JValue.null
    if 0 < jsKeysLen mcpField then
      if backupOk then
        match genParsed with
        | JValue.null =>
          ⟨some (backupName cfgPath now, jstringify 0 (JValue.obj fs)), none, false⟩
        | _ =>
          ⟨some (backupName cfgPath now, jstringify 0 (JValue.obj fs)),
           some (JValue.obj (jsSet fs mcpKey
             (JValue.obj (mergedServers mcpField (genFieldOf genParsed))))), true⟩
      else ⟨none, none, false⟩
    else
      match genParsed with
      | JValue.null => ⟨none, none, false⟩
      | _ =>
        ⟨none,
         some (JValue.obj (jsSet fs mcpKey
           (JValue.obj (mergedServers mcpField (genFieldOf genParsed))))), true⟩
  | JValue.null => ⟨none, none, false⟩
  | JValue.arr xs =>
    match genParsed with
    | JValue.null => ⟨none, none, false⟩
    | _ => ⟨none, some (JValue.arr xs), true⟩
  | _ => ⟨none, none, false⟩

inductive Platform where
  | darwin
  | linux
  | win32
  | other
deriving DecidableEq

/-- getClaudeConfigPath (install.js lines 68-80): a fixed location per
supported platform, an exception (none) otherwise. -/
def getClaudeConfigPath (p : Platform) (homedir appdata : List Char) :
    Option (List Char) :=
  match p with
  | Platform.darwin =>
    some (pathJoin homedir (strL "Library/Application Support/Claude/claude_desktop_config.json"))
  | Platform.linux =>
    some (pathJoin homedir (strL ".config/Claude/claude_desktop_config.json"))
  | Platform.win32 =>
    some (pathJoin appdata (strL "Claude/claude_desktop_config.json"))
  | Platform.other => none

/-- The observable environment of one provisioning run. -/
structure World where
  envFile : FileRead
  templateFile : FileRead
  targetFile : FileRead
  backupWriteOk : Bool
  now : Nat
  platform : Platform
  homedir : List Char
  appdata : List Char
  rootDir : List Char

/-- The observable outcome of one provisioning run: whether the missing-env
warning was printed, the backup write, the merged document and its write to
the target path, and whether the run completed (false means exit code 1). -/
structure InstallResult where
  envWarned : Bool
  backupWrite : Option (List Char × List Char)
  finalDoc : Option JValue
  targetWrite : Option (List Char × List Char)
  ok : Bool

/-- The install function (install.js lines 83-187): load the env, render the
template, parse it, locate the target, read and parse the existing document
(a missing file becomes the empty shell, any other failure aborts), back up,
merge and write.  Any thrown error is caught by the outer handler, which
logs and exits with code 1 without further writes. -/
def install (w : World) : InstallResult :=
  match loadEnvFR w.envFile with
  | none => ⟨false, none, none, none, false⟩
  | some (env, warned) =>
    match w.templateFile with
    | FileRead.content t =>
      match jsonParse (render env w.homedir w.rootDir t) with
      | none => ⟨warned, none, none, none, false⟩
      | some gen =>
        match getClaudeConfigPath w.platform w.homedir w.appdata with
        | none => ⟨warned, none, none, none, false⟩
        | some cfgPath =>
          match w.targetFile with
          | FileRead.readError => ⟨warned, none, none, none, false⟩
          | FileRead.enoent =>
            let m := mergePhase w.backupWriteOk w.now cfgPath emptyShell gen
            ⟨warned, m.backup, m.finalDoc,
             m.finalDoc.map (fun d => (cfgPath, jstringify 0 d)), m.ok⟩
          | FileRead.content s =>
            match jsonParse s with
            | none => ⟨warned, none, none, none, false⟩
            | some claudeParsed =>
              let m := mergePhase w.backupWriteOk w.now cfgPath claudeParsed gen
              ⟨warned, m.backup, m.finalDoc,
               m.finalDoc.map (fun d => (cfgPath, jstringify 0 d)), m.ok⟩
    | _ => ⟨warned, none, none, none, false⟩

def setTarget (w : World) (f : FileRead) : World :=
  ⟨w.envFile, w.templateFile, f, w.backupWriteOk, w.now, w.platform,
   w.homedir, w.appdata, w.rootDir⟩

def setEnvFile (w : World) (f : FileRead) : World :=
  ⟨f, w.templateFile, w.targetFile, w.backupWriteOk, w.now, w.platform,
   w.homedir, w.appdata, w.rootDir⟩

/-- The text whose parse is exactly the empty shell document. -/
def shellText : List Char := strL "\x7b\"mcpServers\":\x7b\x7d\x7d"

/-! ## Lemmas about the object model -/

theorem if_true_eq {β : Type} (x y : β) : (if true = true then x else y) = x :=
  if_pos rfl

theorem if_false_eq {β : Type} (x y : β) : (if false = true then x else y) = y :=
  if_neg Bool.false_ne_true

theorem if_bool_true {β : Type} {b : Bool} (h : b = true) (x y : β) :
    (if b then x else y) = x := by
  rw [h]
  exact if_true_eq x y

theorem if_bool_false {β : Type} {b : Bool} (h : b = false) (x y : β) :
    (if b then x else y) = y := by
  rw [h]
  exact if_false_eq x y

theorem jsKeys_cons {α : Type} (k0 : List Char) (v0 : α) (m : List (List Char × α)) :
    jsKeys ((k0, v0) :: m) = k0 :: jsKeys m := rfl

theorem jsGet_cons {α : Type} (k0 : List Char) (v0 : α) (m : List (List Char × α))
    (k : List Char) :
    jsGet ((k0, v0) :: m) k = if k0 == k then some v0 else jsGet m k := by
  cases hb : (k0 == k) with
  | true =>
    rw [if_true_eq]
    simp only [jsGet, List.find?, hb]
    rfl
  | false =>
    rw [if_false_eq]
    simp only [jsGet, List.find?, hb]

theorem jsGet_append_left {α : Type} {m1 : List (List Char × α)} {k : List Char} {v : α}
    (m2 : List (List Char × α)) (h : jsGet m1 k = some v) :
    jsGet (m1 ++ m2) k = some v := by
  induction m1 with
  | nil => simp [jsGet] at h
  | cons p m ih =>
    rcases p with ⟨k0, v0⟩
    rw [jsGet_cons] at h
    rw [List.cons_append, jsGet_cons]
    cases hb : (k0 == k) with
    | true =>
      rw [if_bool_true hb] at h
      rw [if_true_eq]
      exact h
    | false =>
      rw [if_bool_false hb] at h
      rw [if_false_eq]
      exact ih h

theorem jsGet_append_right {α : Type} {m1 : List (List Char × α)} {k : List Char}
    (m2 : List (List Char × α)) (h : jsGet m1 k = none) :
    jsGet (m1 ++ m2) k = jsGet m2 k := by
  induction m1 with
  | nil => rfl
  | cons p m ih =>
    rcases p with ⟨k0, v0⟩
    rw [jsGet_cons] at h
    rw [List.cons_append, jsGet_cons]
    cases hb : (k0 == k) with
    | true =>
      rw [if_bool_true hb] at h
      exact absurd h (by simp)
    | false =>
      rw [if_bool_false hb] at h
      rw [if_false_eq]
      exact ih h

theorem jsGet_eq_none_iff {α : Type} (m : List (List Char × α)) (k : List Char) :
    jsGet m k = none ↔ k ∉ jsKeys m := by
  induction m with
  | nil => simp [jsGet, jsKeys]
  | cons p m ih =>
    rcases p with ⟨k0, v0⟩
    rw [jsGet_cons]
    cases hb : (k0 == k) with
    | true =>
      have hk : k0 = k := eq_of_beq hb
      rw [if_true_eq, jsKeys_cons]
      simp [hk]
    | false =>
      have hne : k0 ≠ k := ne_of_beq_false hb
      rw [if_false_eq, ih, jsKeys_cons]
      simp [List.mem_cons, Ne.symm hne]

theorem jsKeys_any {α : Type} (m : List (List Char × α)) (k : List Char) :
    (m.any fun p => p.1 == k) = true ↔ k ∈ jsKeys m := by
  induction m with
  | nil => simp [jsKeys]
  | cons p m ih =>
    rcases p with ⟨k0, v0⟩
    rw [jsKeys_cons, List.any_cons, List.mem_cons, Bool.or_eq_true]
    constructor
    · rintro (h | h)
      · exact Or.inl (eq_of_beq h).symm
      · exact Or.inr (ih.mp h)
    · rintro (h | h)
      · exact Or.inl (by simp [h])
      · exact Or.inr (ih.mpr h)

theorem jsGet_replace_self {α : Type} {m : List (List Char × α)} {k : List Char} {v : α}
    (hany : (m.any fun p => p.1 == k) = true) :
    jsGet (m.map (fun p => if p.1 == k then (k, v) else p)) k = some v := by
  induction m with
  | nil => simp at hany
  | cons p m ih =>
    rcases p with ⟨k0, v0⟩
    rw [List.map_cons]
    cases hb : (k0 == k) with
    | true =>
      rw [if_true_eq, jsGet_cons, if_bool_true (beq_self_eq_true k)]
    | false =>
      rw [if_false_eq, jsGet_cons, if_bool_false hb]
      simp only [List.any_cons, hb, Bool.false_or] at hany
      exact ih hany

theorem jsGet_replace_ne {α : Type} {m : List (List Char × α)} {k : List Char} {v : α}
    {k' : List Char} (h : k' ≠ k) :
    jsGet (m.map (fun p => if p.1 == k then (k, v) else p)) k' = jsGet m k' := by
  induction m with
  | nil => rfl
  | cons p m ih =>
    rcases p with ⟨k0, v0⟩
    rw [List.map_cons]
    cases hb : (k0 == k) with
    | true =>
      have hk : k0 = k := eq_of_beq hb
      have hkk' : (k == k') = false := beq_eq_false_iff_ne.mpr (Ne.symm h)
      have hk0k' : (k0 == k') = false := by rw [hk]; exact hkk'
      rw [if_true_eq, jsGet_cons, jsGet_cons, if_bool_false hkk', if_bool_false hk0k']
      exact ih
    | false =>
      rw [if_false_eq, jsGet_cons, jsGet_cons]
      cases hb' : (k0 == k') with
      | true => rw [if_true_eq, if_true_eq]
      | false =>
        rw [if_false_eq, if_false_eq]
        exact ih

theorem jsGet_jsSet_self {α : Type} (m : List (List Char × α)) (k : List Char) (v : α) :
    jsGet (jsSet m k v) k = some v := by
  unfold jsSet
  cases hany : (m.any fun p => p.1 == k) with
  | true =>
    rw [if_true_eq]
    exact jsGet_replace_self hany
  | false =>
    rw [if_false_eq]
    have hnone : jsGet m k = none := by
      rw [jsGet_eq_none_iff]
      intro hmem
      rw [← jsKeys_any] at hmem
      rw [hany] at hmem
      exact Bool.false_ne_true hmem
    rw [jsGet_append_right _ hnone, jsGet_cons, if_bool_true (beq_self_eq_true k)]

theorem jsGet_jsSet_ne {α : Type} (m : List (List Char × α)) (k : List Char) (v : α)
    (k' : List Char) (h : k' ≠ k) :
    jsGet (jsSet m k v) k' = jsGet m k' := by
  unfold jsSet
  cases hany : (m.any fun p => p.1 == k) with
  | true =>
    rw [if_true_eq]
    exact jsGet_replace_ne h
  | false =>
    rw [if_false_eq]
    cases hv : jsGet m k' with
    | some v' =>
      have h1 := @jsGet_append_left α m k' v' [(k, v)] hv
      rw [h1]
    | none =>
      have h1 := @jsGet_append_right α m k' [(k, v)] hv
      rw [h1, jsGet_cons]
      have hkk' : (k == k') = false := beq_eq_false_iff_ne.mpr (Ne.symm h)
      rw [if_bool_false hkk']
      rfl

theorem mem_jsKeys_iff {α : Type} (m : List (List Char × α)) (k : List Char) :
    k ∈ jsKeys m ↔ jsGet m k ≠ none := by
  rw [Ne, jsGet_eq_none_iff]
  exact not_not.symm

theorem mem_jsKeys_jsSet {α : Type} (m : List (List Char × α)) (k : List Char) (v : α)
    (k' : List Char) :
    k' ∈ jsKeys (jsSet m k v) ↔ k' ∈ jsKeys m ∨ k' = k := by
  by_cases h : k' = k
  · subst h
    rw [mem_jsKeys_iff, jsGet_jsSet_self]
    exact ⟨fun _ => Or.inr rfl, fun _ => Option.some_ne_none v⟩
  · rw [mem_jsKeys_iff, jsGet_jsSet_ne m k v k' h, ← mem_jsKeys_iff]
    exact ⟨Or.inl, fun ho => ho.resolve_right h⟩

theorem jsSpread_cons {α : Type} (a : List (List Char × α)) (k0 : List Char) (v0 : α)
    (bs : List (List Char × α)) :
    jsSpread a ((k0, v0) :: bs) = jsSpread (jsSet a k0 v0) bs := rfl

theorem jsGet_jsSpread_of_none {α : Type} (b : List (List Char × α)) :
    ∀ (a : List (List Char × α)) (k : List Char), jsGet b k = none →
      jsGet (jsSpread a b) k = jsGet a k := by
  induction b with
  | nil => intro a k _; rfl
  | cons p bs ih =>
    rcases p with ⟨k0, v0⟩
    intro a k h
    rw [jsGet_cons] at h
    cases hb : (k0 == k) with
    | true =>
      rw [if_bool_true hb] at h
      exact absurd h (by simp)
    | false =>
      rw [if_bool_false hb] at h
      rw [jsSpread_cons, ih _ _ h]
      exact jsGet_jsSet_ne a k0 v0 k (Ne.symm (ne_of_beq_false hb))

theorem jsGet_jsSpread_of_some {α : Type} (b : List (List Char × α)) :
    ∀ (a : List (List Char × α)) (k : List Char) (v : α),
      (jsKeys b).Nodup → jsGet b k = some v →
      jsGet (jsSpread a b) k = some v := by
  induction b with
  | nil => intro a k v _ h; simp [jsGet] at h
  | cons p bs ih =>
    rcases p with ⟨k0, v0⟩
    intro a k v hnd h
    rw [jsGet_cons] at h
    rw [jsKeys_cons, List.nodup_cons] at hnd
    cases hb : (k0 == k) with
    | true =>
      have hk : k0 = k := eq_of_beq hb
      rw [if_bool_true hb] at h
      have hv : v0 = v := Option.some.inj h
      have hbs : jsGet bs k = none := by
        rw [jsGet_eq_none_iff, ← hk]
        exact hnd.1
      rw [jsSpread_cons, jsGet_jsSpread_of_none bs _ k hbs, hk, ← hv]
      exact jsGet_jsSet_self a k v0
    | false =>
      rw [if_bool_false hb] at h
      rw [jsSpread_cons]
      exact ih _ _ _ hnd.2 h

theorem mem_jsKeys_jsSpread {α : Type} (b : List (List Char × α)) :
    ∀ (a : List (List Char × α)) (k : List Char),
      k ∈ jsKeys (jsSpread a b) ↔ k ∈ jsKeys a ∨ k ∈ jsKeys b := by
  induction b with
  | nil =>
    intro a k
    exact ⟨Or.inl, fun h => h.elim id (fun h2 => absurd h2 (List.not_mem_nil k))⟩
  | cons p bs ih =>
    rcases p with ⟨k0, v0⟩
    intro a k
    rw [jsSpread_cons, ih, mem_jsKeys_jsSet, jsKeys_cons, List.mem_cons]
    exact or_assoc

/-! ## Lemmas about replacement, rendering and parameter resolution -/

theorem replaceAllFuel_of_not_hasSub (pat repl : List Char) :
    ∀ (fuel : Nat) (s : List Char), hasSub pat s = false →
      replaceAllFuel pat repl fuel s = s := by
  intro fuel
  induction fuel with
  | zero =>
    intro s _
    cases s <;> rfl
  | succ n ih =>
    intro s h
    cases s with
    | nil => rfl
    | cons c rest =>
      unfold hasSub at h
      rw [Bool.or_eq_false_iff] at h
      unfold replaceAllFuel
      rw [if_bool_false h.1, ih rest h.2]

theorem replaceAll_of_not_hasSub (pat repl s : List Char) (h : hasSub pat s = false) :
    replaceAll pat repl s = s :=
  replaceAllFuel_of_not_hasSub pat repl s.length s h

/-- If the text contains none of the eight placeholder tokens, the rendering
pass leaves it unchanged. -/
theorem render_of_no_tokens (env : EnvMap) (homedir rootDir u : List Char)
    (h : ∀ p ∈ placeholderTokens, hasSub p u = false) :
    render env homedir rootDir u = u := by
  have h1 := h phOrchestratorPath (by simp [placeholderTokens])
  have h2 := h phHubspotPath (by simp [placeholderTokens])
  have h3 := h phSharepointPath (by simp [placeholderTokens])
  have h4 := h phAsanaPath (by simp [placeholderTokens])
  have h5 := h phHubspotUrl (by simp [placeholderTokens])
  have h6 := h phSharepointUrl (by simp [placeholderTokens])
  have h7 := h phAsanaUrl (by simp [placeholderTokens])
  have h8 := h phDebug (by simp [placeholderTokens])
  simp only [render]
  rw [replaceAll_of_not_hasSub _ _ _ h1, replaceAll_of_not_hasSub _ _ _ h2,
      replaceAll_of_not_hasSub _ _ _ h3, replaceAll_of_not_hasSub _ _ _ h4,
      replaceAll_of_not_hasSub _ _ _ h5, replaceAll_of_not_hasSub _ _ _ h6,
      replaceAll_of_not_hasSub _ _ _ h7, replaceAll_of_not_hasSub _ _ _ h8]

theorem jsGet_jsErase_self {α : Type} (m : List (List Char × α)) (k : List Char) :
    jsGet (jsErase k m) k = none := by
  induction m with
  | nil => rfl
  | cons p m ih =>
    rcases p with ⟨k0, v0⟩
    simp only [jsErase, List.filter_cons]
    cases hb : (!(k0 == k)) with
    | true =>
      rw [if_true_eq, jsGet_cons]
      have hne : (k0 == k) = false := by
        cases hbb : (k0 == k) with
        | true => rw [hbb] at hb; simp at hb
        | false => rfl
      rw [if_bool_false hne]
      exact ih
    | false =>
      rw [if_false_eq]
      exact ih

theorem jsGet_jsErase_ne {α : Type} (m : List (List Char × α)) (k k' : List Char)
    (h : k' ≠ k) :
    jsGet (jsErase k m) k' = jsGet m k' := by
  induction m with
  | nil => rfl
  | cons p m ih =>
    rcases p with ⟨k0, v0⟩
    simp only [jsErase, List.filter_cons]
    cases hb : (!(k0 == k)) with
    | true =>
      rw [if_true_eq, jsGet_cons, jsGet_cons]
      cases hb' : (k0 == k') with
      | true => rw [if_true_eq, if_true_eq]
      | false =>
        rw [if_false_eq, if_false_eq]
        exact ih
    | false =>
      rw [if_false_eq]
      have hk0 : (k0 == k) = true := by
        cases hbb : (k0 == k) with
        | true => rfl
        | false => rw [hbb] at hb; simp at hb
      have hk0k' : (k0 == k') = false :=
        beq_eq_false_iff_ne.mpr (fun he => h (he ▸ eq_of_beq hk0))
      rw [jsGet_cons, if_bool_false hk0k']
      exact ih

theorem orDefault_erase {env : EnvMap} {K : List Char} (h : jsGet env K = some [])
    (K' d : List Char) :
    orDefault (jsGet (jsErase K env) K') d = orDefault (jsGet env K') d := by
  by_cases hk : K' = K
  · subst hk
    rw [jsGet_jsErase_self, h]
    rfl
  · rw [jsGet_jsErase_ne env K K' hk]

def defaultedKeys : List (List Char) :=
  [strL "INSTALL_DIR", strL "HUBSPOT_PROJECT_PATH", strL "SHAREPOINT_PROJECT_PATH",
   strL "ASANA_PROJECT_PATH", strL "HUBSPOT_MCP_URL", strL "SHAREPOINT_MCP_URL",
   strL "ASANA_MCP_URL", strL "DEBUG"]

/-! ## Lemmas about the merge phase -/

theorem mergePhase_no_entries (backupOk : Bool) (now : Nat) (cfgPath : List Char)
    (fs : JObj) (gen : JValue)
    (h0 : jsKeysLen ((jsGet fs mcpKey).getD JValue.null) = 0) (hg : gen ≠ JValue.null) :
    mergePhase backupOk now cfgPath (JValue.obj fs) gen =
      ⟨none, some (JValue.obj (jsSet fs mcpKey (JValue.obj
        (mergedServers ((jsGet fs mcpKey).getD JValue.null) (genFieldOf gen))))), true⟩ := by
  simp only [mergePhase]
  rw [if_neg (by rw [h0]; exact Nat.lt_irrefl 0)]

theorem mergePhase_with_entries (now : Nat) (cfgPath : List Char)
    (fs : JObj) (gen : JValue)
    (h0 : 0 < jsKeysLen ((jsGet fs mcpKey).getD JValue.null)) (hg : gen ≠ JValue.null) :
    mergePhase true now cfgPath (JValue.obj fs) gen =
      ⟨some (backupName cfgPath now, jstringify 0 (JValue.obj fs)),
       some (JValue.obj (jsSet fs mcpKey (JValue.obj
         (mergedServers ((jsGet fs mcpKey).getD JValue.null) (genFieldOf gen))))), true⟩ := by
  simp only [mergePhase]
  rw [if_pos h0, if_pos trivial]

/-! ## Claim C1 -/

/-- C1: in the merged provider registry, every provider name defined by the
rendered document maps to the rendered document's whole entry; every other
name maps to the existing document's entry unchanged; and the merged key set
is exactly the union of the two key sets. -/
theorem c1_merge_union_precedence (e r : JObj) (hr : (jsKeys r).Nodup) (k : List Char) :
    (∀ v, jsGet r k = some v →
      jsGet (mergedServers (JValue.obj e) (JValue.obj r)) k = some v) ∧
    (jsGet r k = none →
      jsGet (mergedServers (JValue.obj e) (JValue.obj r)) k = jsGet e k) ∧
    (k ∈ jsKeys (mergedServers (JValue.obj e) (JValue.obj r)) ↔
      k ∈ jsKeys e ∨ k ∈ jsKeys r) := by
  refine ⟨?_, ?_, ?_⟩
  · intro v hv
    exact jsGet_jsSpread_of_some r e k v hr hv
  · intro hv
    exact jsGet_jsSpread_of_none r e k hv
  · exact mem_jsKeys_jsSpread r e k

def c1ExistingServers : JObj :=
  [(strL "foo", JValue.str (strL "a")), (strL "x", JValue.str (strL "old"))]

def c1RenderedServers : JObj :=
  [(strL "x", JValue.str (strL "new")), (strL "bar", JValue.str (strL "b"))]

/-- Witness for C1 at concrete documents. -/
theorem c1_merge_union_precedence_witness :
    (jsKeys c1RenderedServers).Nodup ∧
    jsGet (mergedServers (JValue.obj c1ExistingServers) (JValue.obj c1RenderedServers))
        (strL "x") = some (JValue.str (strL "new")) ∧
    jsGet (mergedServers (JValue.obj c1ExistingServers) (JValue.obj c1RenderedServers))
        (strL "foo") = jsGet c1ExistingServers (strL "foo") ∧
    (strL "bar" ∈
        jsKeys (mergedServers (JValue.obj c1ExistingServers) (JValue.obj c1RenderedServers)) ↔
      strL "bar" ∈ jsKeys c1ExistingServers ∨ strL "bar" ∈ jsKeys c1RenderedServers) := by
  have hnd : (jsKeys c1RenderedServers).Nodup := by decide
  refine ⟨hnd, ?_, ?_, ?_⟩
  · exact (c1_merge_union_precedence c1ExistingServers c1RenderedServers hnd (strL "x")).1
      (JValue.str (strL "new")) rfl
  · exact (c1_merge_union_precedence c1ExistingServers c1RenderedServers hnd
      (strL "foo")).2.1 rfl
  · exact (c1_merge_union_precedence c1ExistingServers c1RenderedServers hnd
      (strL "bar")).2.2

/-! ## Claim C3 -/

def c3Template : List Char :=
  strL "\x7b\"mcpServers\":\x7b\"bar\":\x7b\"command\":\"b\"\x7d\x7d\x7d"

def c3Existing : List Char :=
  strL "\x7b\"mcpServers\":\x7b\"foo\":\x7b\"command\":\"a\"\x7d\x7d\x7d"

/-- A run in which every step succeeds except the backup write. -/
def c3World : World :=
  ⟨FileRead.enoent, FileRead.content c3Template, FileRead.content c3Existing,
   false, 7, Platform.linux, strL "/home/user", [], strL "/app"⟩

/-- The same run with a succeeding backup write. -/
def c3WorldOk : World :=
  ⟨FileRead.enoent, FileRead.content c3Template, FileRead.content c3Existing,
   true, 7, Platform.linux, strL "/home/user", [], strL "/app"⟩

/-- C3 counterexample: in a run that reaches the backup step with a non-empty
existing registry (shown by the variant where the backup write succeeds and
the run completes), a failing backup write makes the whole run abort: nothing
is written to the target path and the exit status is failure, contradicting
the claim that the merge still happens and the final document is still
persisted. -/
theorem c3_counterexample :
    (install c3WorldOk).ok = true ∧
    (install c3WorldOk).backupWrite.isSome = true ∧
    (install c3WorldOk).targetWrite.isSome = true ∧
    (install c3World).ok = false ∧
    (install c3World).targetWrite = none ∧
    (install c3World).backupWrite = none :=
  ⟨rfl, rfl, rfl, rfl, rfl, rfl⟩

/-- C3 amended: if the backup write is reached (the pre-merge registry has at
least one enumerable key) and fails, the run aborts: no backup file, no merge
result and no write to the target path, with failure status — the error
propagates to the top-level handler, which logs it and exits with code 1. -/
theorem c3_backup_failure_aborts (now : Nat) (cfgPath : List Char)
    (fs : JObj) (gen : JValue)
    (h0 : 0 < jsKeysLen ((jsGet fs mcpKey).getD JValue.null)) :
    mergePhase false now cfgPath (JValue.obj fs) gen = ⟨none, none, false⟩ := by
  simp only [mergePhase]
  rw [if_pos h0, if_false_eq]

/-- Witness for the amended C3 at a concrete document. -/
theorem c3_backup_failure_aborts_witness :
    0 < jsKeysLen ((jsGet [(mcpKey, JValue.obj [(strL "foo", JValue.str (strL "a"))])]
        mcpKey).getD JValue.null) ∧
    mergePhase false 7 (strL "/p")
        (JValue.obj [(mcpKey, JValue.obj [(strL "foo", JValue.str (strL "a"))])])
        (JValue.obj []) = ⟨none, none, false⟩ :=
  ⟨by decide,
   c3_backup_failure_aborts 7 (strL "/p")
     [(mcpKey, JValue.obj [(strL "foo", JValue.str (strL "a"))])] (JValue.obj [])
     (by decide)⟩

/-! ## Claim C5 -/

theorem mergePhase_finalDoc_obj (backupOk : Bool) (now : Nat) (cfgPath : List Char)
    (fs : JObj) (gen : JValue) (d : JValue)
    (hfd : (mergePhase backupOk now cfgPath (JValue.obj fs) gen).finalDoc = some d) :
    d = JValue.obj (jsSet fs mcpKey (JValue.obj
      (mergedServers ((jsGet fs mcpKey).getD JValue.null) (genFieldOf gen)))) := by
  simp only [mergePhase] at hfd
  by_cases hn : 0 < jsKeysLen ((jsGet fs mcpKey).getD JValue.null)
  · rw [if_pos hn] at hfd
    cases backupOk with
    | false =>
      rw [if_false_eq] at hfd
      exact absurd hfd (by simp)
    | true =>
      rw [if_true_eq] at hfd
      cases gen with
      | null => exact absurd hfd (by simp)
      | bool b => exact (Option.some.inj hfd).symm
      | num n => exact (Option.some.inj hfd).symm
      | str s => exact (Option.some.inj hfd).symm
      | arr xs => exact (Option.some.inj hfd).symm
      | obj gs => exact (Option.some.inj hfd).symm
  · rw [if_neg hn] at hfd
    cases gen with
    | null => exact absurd hfd (by simp)
    | bool b => exact (Option.some.inj hfd).symm
    | num n => exact (Option.some.inj hfd).symm
    | str s => exact (Option.some.inj hfd).symm
    | arr xs => exact (Option.some.inj hfd).symm
    | obj gs => exact (Option.some.inj hfd).symm

/-- C5: whenever a run over an object-shaped existing target document
produces a final document, every top-level entry of the existing document
other than the provider registry is present in the final document with an
unchanged value. -/
theorem c5_other_entries_preserved (backupOk : Bool) (now : Nat) (cfgPath : List Char)
    (fs : JObj) (gen : JValue) (ds : JObj) (k : List Char)
    (hk : k ≠ mcpKey)
    (hfd : (mergePhase backupOk now cfgPath (JValue.obj fs) gen).finalDoc =
      some (JValue.obj ds)) :
    jsGet ds k = jsGet fs k := by
  have hd := mergePhase_finalDoc_obj backupOk now cfgPath fs gen (JValue.obj ds) hfd
  have hds : ds = jsSet fs mcpKey (JValue.obj
      (mergedServers ((jsGet fs mcpKey).getD JValue.null) (genFieldOf gen))) :=
    JValue.obj.inj hd
  rw [hds]
  exact jsGet_jsSet_ne fs mcpKey _ k hk

def c5Existing : JObj :=
  [(strL "theme", JValue.str (strL "dark")),
   (mcpKey, JValue.obj [(strL "foo", JValue.str (strL "a"))]),
   (strL "zoom", JValue.num 2)]

/-- Witness for C5 at a concrete document. -/
theorem c5_other_entries_preserved_witness :
    strL "theme" ≠ mcpKey ∧
    jsGet (jsSet c5Existing mcpKey (JValue.obj
        (mergedServers ((jsGet c5Existing mcpKey).getD JValue.null)
          (genFieldOf (JValue.obj []))))) (strL "theme") =
      jsGet c5Existing (strL "theme") := by
  refine ⟨by decide, ?_⟩
  exact c5_other_entries_preserved true 7 (strL "/p") c5Existing (JValue.obj []) _
    (strL "theme") (by decide) rfl

/-! ## Claim C8 -/

def c8Template : List Char := strL "\x7b\"mcpServers\":\x7b\x7d\x7d"

def c8Existing : List Char :=
  strL "\x7b\"mcpServers\":\x7b\"foo\":\x7b\"command\":\"a\"\x7d\x7d\x7d"

/-- A run over a compactly serialized existing target file. -/
def c8World : World :=
  ⟨FileRead.enoent, FileRead.content c8Template, FileRead.content c8Existing,
   true, 7, Platform.linux, strL "/home/user", [], strL "/app"⟩

/-- C8 counterexample: this run takes a backup, but the backup file's content
differs from the original existing target file's bytes — the script writes
the re-serialized (two-space pretty-printed) parse of the document, not the
original text, so the backup is not verbatim. -/
theorem c8_counterexample :
    (install c8World).backupWrite.isSome = true ∧
    (install c8World).backupWrite.map Prod.snd ≠ some c8Existing := by
  refine ⟨rfl, ?_⟩
  decide

/-- C8 amended: whenever a backup is taken, the backup file is named with the
target path, the fixed infix and the timestamp, and its content is the
pre-merge parsed document re-serialized with two-space indentation — the same
document as the original file, but not necessarily its verbatim bytes. -/
theorem c8_backup_is_reserialized_doc (backupOk : Bool) (now : Nat) (cfgPath : List Char)
    (v gen : JValue) (nm c : List Char)
    (hb : (mergePhase backupOk now cfgPath v gen).backup = some (nm, c)) :
    nm = backupName cfgPath now ∧ c = jstringify 0 v := by
  cases v with
  | obj fs =>
    simp only [mergePhase] at hb
    by_cases hn : 0 < jsKeysLen ((jsGet fs mcpKey).getD JValue.null)
    · rw [if_pos hn] at hb
      cases backupOk with
      | false =>
        rw [if_false_eq] at hb
        exact absurd hb (by simp)
      | true =>
        rw [if_true_eq] at hb
        cases gen <;>
          exact ⟨(congrArg Prod.fst (Option.some.inj hb)).symm,
                 (congrArg Prod.snd (Option.some.inj hb)).symm⟩
    · rw [if_neg hn] at hb
      cases gen <;> exact absurd hb (by simp)
  | null => exact absurd hb (by simp [mergePhase])
  | bool b => exact absurd hb (by simp [mergePhase])
  | num n => exact absurd hb (by simp [mergePhase])
  | str s => exact absurd hb (by simp [mergePhase])
  | arr xs => cases gen <;> exact absurd hb (by simp [mergePhase])

def c8Doc : JValue := JValue.obj [(mcpKey, JValue.obj [(strL "foo", JValue.str (strL "a"))])]

/-- Witness for the amended C8 at a concrete document. -/
theorem c8_backup_is_reserialized_doc_witness :
    strL "/p.backup.7" = backupName (strL "/p") 7 ∧
    strL "\x7b\n  \"mcpServers\": \x7b\n    \"foo\": \"a\"\n  \x7d\n\x7d" =
      jstringify 0 c8Doc :=
  c8_backup_is_reserialized_doc true 7 (strL "/p") c8Doc (JValue.obj [])
    (strL "/p.backup.7")
    (strL "\x7b\n  \"mcpServers\": \x7b\n    \"foo\": \"a\"\n  \x7d\n\x7d")
    rfl

/-! ## Claim C2 -/

/-- C2: for a run with a succeeding backup write over an object-shaped
existing target document, exactly one backup — named with the target path,
the fixed backup infix and the millisecond timestamp — is written if and
only if the pre-merge provider registry has at least one entry; with an
empty registry no backup is written although the final document is still
produced, and a missing target file never produces a backup. -/
theorem c2_backup_iff :
    (∀ (now : Nat) (cfgPath : List Char) (fs : JObj) (gen : JValue),
      mcpFieldWF fs = true → gen ≠ JValue.null →
      (((mergePhase true now cfgPath (JValue.obj fs) gen).backup =
          some (backupName cfgPath now, jstringify 0 (JValue.obj fs))) ↔
        providersOf fs ≠ []) ∧
      (providersOf fs = [] →
        (mergePhase true now cfgPath (JValue.obj fs) gen).backup = none ∧
        ((mergePhase true now cfgPath (JValue.obj fs) gen).finalDoc).isSome = true)) ∧
    (∀ w : World, w.targetFile = FileRead.enoent → (install w).backupWrite = none) := by
  constructor
  · intro now cfgPath fs gen hwf hg
    unfold mcpFieldWF at hwf
    cases hm : jsGet fs mcpKey with
    | none =>
      have h0 : jsKeysLen ((jsGet fs mcpKey).getD JValue.null) = 0 := by rw [hm]; rfl
      have hpr : providersOf fs = [] := by unfold providersOf; rw [hm]; rfl
      rw [mergePhase_no_entries true now cfgPath fs gen h0 hg]
      exact ⟨⟨fun hbk => absurd hbk (by simp), fun hne => absurd hpr hne⟩,
             fun _ => ⟨rfl, rfl⟩⟩
    | some v =>
      rw [hm] at hwf
      cases v with
      | null =>
        have h0 : jsKeysLen ((jsGet fs mcpKey).getD JValue.null) = 0 := by rw [hm]; rfl
        have hpr : providersOf fs = [] := by unfold providersOf; rw [hm]; rfl
        rw [mergePhase_no_entries true now cfgPath fs gen h0 hg]
        exact ⟨⟨fun hbk => absurd hbk (by simp), fun hne => absurd hpr hne⟩,
               fun _ => ⟨rfl, rfl⟩⟩
      | obj mServers =>
        have hpr : providersOf fs = mServers := by unfold providersOf; rw [hm]; rfl
        cases mServers with
        | nil =>
          have h0 : jsKeysLen ((jsGet fs mcpKey).getD JValue.null) = 0 := by rw [hm]; rfl
          rw [mergePhase_no_entries true now cfgPath fs gen h0 hg]
          exact ⟨⟨fun hbk => absurd hbk (by simp), fun hne => absurd hpr hne⟩,
                 fun _ => ⟨rfl, rfl⟩⟩
        | cons x xs =>
          have h0 : 0 < jsKeysLen ((jsGet fs mcpKey).getD JValue.null) := by
            rw [hm]
            exact Nat.succ_pos xs.length
          rw [mergePhase_with_entries now cfgPath fs gen h0 hg]
          refine ⟨⟨fun _ => ?_, fun _ => rfl⟩, fun hempty => ?_⟩
          · rw [hpr]
            exact List.cons_ne_nil x xs
          · rw [hpr] at hempty
            exact absurd hempty (List.cons_ne_nil x xs)
      | bool b => exact Bool.noConfusion hwf
      | num n => exact Bool.noConfusion hwf
      | str s => exact Bool.noConfusion hwf
      | arr xs => exact Bool.noConfusion hwf
  · intro w hw
    simp only [install]
    cases h1 : loadEnvFR w.envFile with
    | none => rfl
    | some p =>
      rcases p with ⟨env, warned⟩
      dsimp only
      cases h2 : w.templateFile with
      | enoent => rfl
      | readError => rfl
      | content t =>
        dsimp only
        cases h3 : jsonParse (render env w.homedir w.rootDir t) with
        | none => rfl
        | some gen =>
          dsimp only
          cases h4 : getClaudeConfigPath w.platform w.homedir w.appdata with
          | none => rfl
          | some cfgPath =>
            dsimp only
            rw [hw]
            cases gen <;> rfl

def c2Template : List Char :=
  strL "\x7b\"mcpServers\":\x7b\"bar\":\x7b\"command\":\"b\"\x7d\x7d\x7d"

def c2World : World :=
  ⟨FileRead.enoent, FileRead.content c2Template, FileRead.enoent,
   true, 7, Platform.linux, strL "/home/user", [], strL "/app"⟩

def c2Existing : JObj := [(mcpKey, JValue.obj [(strL "foo", JValue.str (strL "a"))])]

/-- Witness for C2 at concrete inputs. -/
theorem c2_backup_iff_witness :
    mcpFieldWF c2Existing = true ∧
    (mergePhase true 7 (strL "/p") (JValue.obj c2Existing) (JValue.obj [])).backup =
      some (backupName (strL "/p") 7, jstringify 0 (JValue.obj c2Existing)) ∧
    (install c2World).backupWrite = none := by
  refine ⟨rfl, ?_, ?_⟩
  · refine ((c2_backup_iff.1 7 (strL "/p") c2Existing (JValue.obj []) rfl
      (fun h => JValue.noConfusion h)).1).mpr ?_
    intro h
    have he : providersOf c2Existing = [(strL "foo", JValue.str (strL "a"))] := rfl
    rw [he] at h
    exact List.noConfusion h
  · exact c2_backup_iff.2 c2World rfl

/-! ## Claim C4 -/

/-- C4: a missing target file is handled exactly like a target file holding
the empty shell document and is not an error; a present but unparseable
target file is fatal, and a rendered document that fails to parse is fatal;
in both fatal cases the run makes no write at all (neither backup nor target
path). -/
theorem c4_parse_failures :
    (∀ w : World, w.targetFile = FileRead.enoent →
      install w = install (setTarget w (FileRead.content shellText))) ∧
    (∀ (w : World) (s : List Char), w.targetFile = FileRead.content s →
      jsonParse s = none →
      (install w).ok = false ∧ (install w).backupWrite = none ∧
      (install w).targetWrite = none) ∧
    (∀ (w : World) (env : EnvMap) (warned : Bool) (t : List Char),
      loadEnvFR w.envFile = some (env, warned) → w.templateFile = FileRead.content t →
      jsonParse (render env w.homedir w.rootDir t) = none →
      (install w).ok = false ∧ (install w).backupWrite = none ∧
      (install w).targetWrite = none) := by
  refine ⟨?_, ?_, ?_⟩
  · intro w hw
    simp only [install, setTarget]
    cases h1 : loadEnvFR w.envFile with
    | none => rfl
    | some p =>
      rcases p with ⟨env, warned⟩
      dsimp only
      cases h2 : w.templateFile with
      | enoent => rfl
      | readError => rfl
      | content t =>
        dsimp only
        cases h3 : jsonParse (render env w.homedir w.rootDir t) with
        | none => rfl
        | some gen =>
          dsimp only
          cases h4 : getClaudeConfigPath w.platform w.homedir w.appdata with
          | none => rfl
          | some cfgPath =>
            dsimp only
            rw [hw]
            rfl
  · intro w s hts hps
    simp only [install]
    cases h1 : loadEnvFR w.envFile with
    | none => exact ⟨rfl, rfl, rfl⟩
    | some p =>
      rcases p with ⟨env, warned⟩
      dsimp only
      cases h2 : w.templateFile with
      | enoent => exact ⟨rfl, rfl, rfl⟩
      | readError => exact ⟨rfl, rfl, rfl⟩
      | content t =>
        dsimp only
        cases h3 : jsonParse (render env w.homedir w.rootDir t) with
        | none => exact ⟨rfl, rfl, rfl⟩
        | some gen =>
          dsimp only
          cases h4 : getClaudeConfigPath w.platform w.homedir w.appdata with
          | none => exact ⟨rfl, rfl, rfl⟩
          | some cfgPath =>
            dsimp only
            rw [hts]
            simp [hps]
  · intro w env warned t h1 h2 h3
    simp only [install]
    rw [h1, h2]
    simp [h3]

def c4Template : List Char := strL "\x7b\"mcpServers\":\x7b\x7d\x7d"

def c4WorldA : World :=
  ⟨FileRead.enoent, FileRead.content c4Template, FileRead.enoent,
   true, 7, Platform.linux, strL "/home/user", [], strL "/app"⟩

def c4WorldB : World :=
  ⟨FileRead.enoent, FileRead.content c4Template, FileRead.content (strL "nonsense"),
   true, 7, Platform.linux, strL "/home/user", [], strL "/app"⟩

def c4WorldC : World :=
  ⟨FileRead.enoent, FileRead.content (strL "nonsense"), FileRead.enoent,
   true, 7, Platform.linux, strL "/home/user", [], strL "/app"⟩

/-- Witness for C4 at concrete runs. -/
theorem c4_parse_failures_witness :
    install c4WorldA = install (setTarget c4WorldA (FileRead.content shellText)) ∧
    ((install c4WorldB).ok = false ∧ (install c4WorldB).backupWrite = none ∧
      (install c4WorldB).targetWrite = none) ∧
    ((install c4WorldC).ok = false ∧ (install c4WorldC).backupWrite = none ∧
      (install c4WorldC).targetWrite = none) :=
  ⟨c4_parse_failures.1 c4WorldA rfl,
   c4_parse_failures.2.1 c4WorldB (strL "nonsense") rfl rfl,
   c4_parse_failures.2.2 c4WorldC [] true (strL "nonsense") rfl rfl rfl⟩

/-! ## Claim C7 -/

/-- C7: a missing parameter source file degrades to the built-in defaults
(the run behaves exactly like a run over an empty parameter source) and only
raises the warning flag; any other read failure of the parameter source is
fatal and the run aborts with no writes. -/
theorem c7_env_missing_vs_error :
    (∀ w : World, w.envFile = FileRead.enoent →
      (install w).envWarned = true ∧
      (install w).backupWrite = (install (setEnvFile w (FileRead.content []))).backupWrite ∧
      (install w).finalDoc = (install (setEnvFile w (FileRead.content []))).finalDoc ∧
      (install w).targetWrite = (install (setEnvFile w (FileRead.content []))).targetWrite ∧
      (install w).ok = (install (setEnvFile w (FileRead.content []))).ok) ∧
    (∀ w : World, w.envFile = FileRead.readError →
      install w = ⟨false, none, none, none, false⟩) := by
  constructor
  · intro w hw
    have hpe : parseEnv ([] : List Char) = ([] : EnvMap) := rfl
    simp only [install, setEnvFile]
    rw [hw]
    simp only [loadEnvFR, hpe]
    cases h2 : w.templateFile with
    | enoent => exact ⟨rfl, rfl, rfl, rfl, rfl⟩
    | readError => exact ⟨rfl, rfl, rfl, rfl, rfl⟩
    | content t =>
      dsimp only
      cases h3 : jsonParse (render [] w.homedir w.rootDir t) with
      | none => exact ⟨rfl, rfl, rfl, rfl, rfl⟩
      | some gen =>
        dsimp only
        cases h4 : getClaudeConfigPath w.platform w.homedir w.appdata with
        | none => exact ⟨rfl, rfl, rfl, rfl, rfl⟩
        | some cfgPath =>
          dsimp only
          cases h5 : w.targetFile with
          | readError => exact ⟨rfl, rfl, rfl, rfl, rfl⟩
          | enoent => exact ⟨rfl, rfl, rfl, rfl, rfl⟩
          | content s =>
            dsimp only
            cases h6 : jsonParse s with
            | none => exact ⟨rfl, rfl, rfl, rfl, rfl⟩
            | some cp => exact ⟨rfl, rfl, rfl, rfl, rfl⟩
  · intro w hw
    simp only [install]
    rw [hw]
    rfl

def c7Template : List Char := strL "\x7b\"mcpServers\":\x7b\x7d\x7d"

def c7WorldA : World :=
  ⟨FileRead.enoent, FileRead.content c7Template, FileRead.enoent,
   true, 7, Platform.linux, strL "/home/user", [], strL "/app"⟩

def c7WorldB : World :=
  ⟨FileRead.readError, FileRead.content c7Template, FileRead.enoent,
   true, 7, Platform.linux, strL "/home/user", [], strL "/app"⟩

/-- Witness for C7 at concrete runs. -/
theorem c7_env_missing_vs_error_witness :
    (install c7WorldA).envWarned = true ∧
    (install c7WorldA).ok = (install (setEnvFile c7WorldA (FileRead.content []))).ok ∧
    install c7WorldB = ⟨false, none, none, none, false⟩ :=
  ⟨(c7_env_missing_vs_error.1 c7WorldA rfl).1,
   (c7_env_missing_vs_error.1 c7WorldA rfl).2.2.2.2,
   c7_env_missing_vs_error.2 c7WorldB rfl⟩

/-! ## Claim C6 -/

/-- C6 counterexample: with an empty parameter source, the DEBUG key is
absent, yet its placeholder renders to the built-in default "false" — not to
the empty string as the claim states. -/
theorem c6_counterexample :
    jsGet ([] : EnvMap) (strL "DEBUG") = none ∧
    render [] (strL "/home/user") (strL "/app") phDebug = strL "false" ∧
    strL "false" ≠ ([] : List Char) := by
  refine ⟨rfl, by decide, by decide⟩

/-- C6 amended: resolution is total — every key the template references
always yields some string — and a key absent from the parameter source
resolves to its built-in default (the home directory for INSTALL_DIR, paths
derived from the install directory for the provider projects, the fixed
endpoint URLs, and "false" for DEBUG), not to the empty string. -/
theorem c6_absent_key_uses_default (env : EnvMap) (hd rd : List Char) :
    (jsGet env (strL "INSTALL_DIR") = none →
      (resolveParams env hd rd).installDir = hd) ∧
    (jsGet env (strL "HUBSPOT_PROJECT_PATH") = none →
      (resolveParams env hd rd).hubspotPath =
        pathJoin (resolveParams env hd rd).installDir (strL "hubspot-mcp-railway")) ∧
    (jsGet env (strL "SHAREPOINT_PROJECT_PATH") = none →
      (resolveParams env hd rd).sharepointPath =
        pathJoin (resolveParams env hd rd).installDir (strL "sharepoint-mcp-railway")) ∧
    (jsGet env (strL "ASANA_PROJECT_PATH") = none →
      (resolveParams env hd rd).asanaPath =
        pathJoin (resolveParams env hd rd).installDir (strL "asana-mcp-railway")) ∧
    (jsGet env (strL "HUBSPOT_MCP_URL") = none →
      (resolveParams env hd rd).hubspotUrl =
        strL "https://hubspot-mcp-railway-production-386b.up.railway.app/mcp") ∧
    (jsGet env (strL "SHAREPOINT_MCP_URL") = none →
      (resolveParams env hd rd).sharepointUrl =
        strL "https://sharepoint-mcp-railway-production.up.railway.app/mcp") ∧
    (jsGet env (strL "ASANA_MCP_URL") = none →
      (resolveParams env hd rd).asanaUrl =
        strL "https://asana-mcp-railway-production.up.railway.app/sse") ∧
    (jsGet env (strL "DEBUG") = none →
      (resolveParams env hd rd).debug = strL "false") := by
  refine ⟨?_, ?_, ?_, ?_, ?_, ?_, ?_, ?_⟩ <;>
    (intro h; simp only [resolveParams]; rw [h]; rfl)

/-- Witness for the amended C6 with an empty parameter source. -/
theorem c6_absent_key_uses_default_witness :
    (resolveParams [] (strL "/h") (strL "/r")).debug = strL "false" ∧
    (resolveParams [] (strL "/h") (strL "/r")).installDir = strL "/h" :=
  ⟨(c6_absent_key_uses_default [] (strL "/h") (strL "/r")).2.2.2.2.2.2.2 rfl,
   (c6_absent_key_uses_default [] (strL "/h") (strL "/r")).1 rfl⟩

/-! ## Claim C9 -/

def c9Env : EnvMap := [(strL "DEBUG", strL "ORCHESTRATOR_PATH")]

def c9Template : List Char := strL "\x7b\x7b\x7b\x7bDEBUG\x7d\x7d\x7d\x7d"

def noBraceChars (v : List Char) : Bool :=
  !(v.any (fun c => c == lbrace || c == rbrace))

/-- C9 counterexample: every resolved parameter value here is free of
placeholder syntax (it contains no brace character at all), yet rendering
already-rendered text substitutes again: the DEBUG substitution splices the
value between brace pairs already present in the template, creating an
orchestrator-path token whose replacement pass has already run, so a second
rendering changes the text. -/
theorem c9_counterexample :
    ([(resolveParams c9Env (strL "/home/user") (strL "/app")).installDir,
      (resolveParams c9Env (strL "/home/user") (strL "/app")).orchestratorPath,
      (resolveParams c9Env (strL "/home/user") (strL "/app")).hubspotPath,
      (resolveParams c9Env (strL "/home/user") (strL "/app")).sharepointPath,
      (resolveParams c9Env (strL "/home/user") (strL "/app")).asanaPath,
      (resolveParams c9Env (strL "/home/user") (strL "/app")).hubspotUrl,
      (resolveParams c9Env (strL "/home/user") (strL "/app")).sharepointUrl,
      (resolveParams c9Env (strL "/home/user") (strL "/app")).asanaUrl,
      (resolveParams c9Env (strL "/home/user") (strL "/app")).debug].all
        noBraceChars) = true ∧
    render c9Env (strL "/home/user") (strL "/app")
        (render c9Env (strL "/home/user") (strL "/app") c9Template) ≠
      render c9Env (strL "/home/user") (strL "/app") c9Template := by
  refine ⟨by decide, by decide⟩

/-- C9 amended: rendering is idempotent provided the once-rendered text
contains no occurrence of any placeholder token: a second substitution pass
with the same parameters is then a no-op.  (The value-level condition of the
original claim is not sufficient, because a substituted value can combine
with braces already present in the template to form a new token.) -/
theorem c9_render_idempotent (env : EnvMap) (hd rd t : List Char)
    (h : ∀ p ∈ placeholderTokens, hasSub p (render env hd rd t) = false) :
    render env hd rd (render env hd rd t) = render env hd rd t :=
  render_of_no_tokens env hd rd (render env hd rd t) h

/-- Witness for the amended C9 on a concrete template. -/
theorem c9_render_idempotent_witness :
    render [] (strL "/h") (strL "/r") (render [] (strL "/h") (strL "/r") (strL "x")) =
      render [] (strL "/h") (strL "/r") (strL "x") :=
  c9_render_idempotent [] (strL "/h") (strL "/r") (strL "x") (by decide)

/-! ## Claim C10 -/

/-- C10: a parameter supplied in the source with a value that is empty after
trimming is indistinguishable from omitting the key: the env parser stores
the empty string for such a line, and for every key with a built-in default
the resolved parameters are the same whether the key maps to the empty
string or is erased from the source entirely — so no run can set such a
parameter to the empty string. -/
theorem c10_empty_value_equals_absent :
    parseEnvLine (strL "DEBUG=   ") = some (strL "DEBUG", []) ∧
    (∀ (env : EnvMap) (hd rd K : List Char), K ∈ defaultedKeys →
      jsGet env K = some [] →
      resolveParams env hd rd = resolveParams (jsErase K env) hd rd) := by
  constructor
  · rfl
  · intro env hd rd K _ h
    simp only [resolveParams]
    simp only [orDefault_erase h]

/-- Witness for C10 at a concrete parameter source. -/
theorem c10_empty_value_equals_absent_witness :
    strL "DEBUG" ∈ defaultedKeys ∧
    jsGet [(strL "DEBUG", ([] : List Char))] (strL "DEBUG") = some [] ∧
    resolveParams [(strL "DEBUG", [])] (strL "/h") (strL "/r") =
      resolveParams (jsErase (strL "DEBUG") [(strL "DEBUG", [])]) (strL "/h") (strL "/r") :=
  ⟨by decide, rfl,
   c10_empty_value_equals_absent.2 [(strL "DEBUG", [])] (strL "/h") (strL "/r")
     (strL "DEBUG") (by decide) rfl⟩
